import Mathlib

/-!
Shallow embedding of the real-time transcription session logic of the
verbum-sdk-comparison repository: the two STT adapter services
(`VerbumService` in src/services/verbumService.ts, `DeepgramService`
in the Deepgram service file) and the easy-peasy store modules
(`verbumModel.ts` / `deepgramModel.ts`, which are textually identical).

JavaScript strings are embedded as `List Char`, JS numbers as `ℚ`
(all values manipulated here are exact decimal/rational values),
wall-clock millisecond timestamps as `ℤ`, and optional fields
(`latency?`, `confidence?`) as `Option`.
-/

/-- JS strings are modelled as lists of characters. -/
abbrev Str := List Char

/-- Leading-whitespace removal, one side of JS `String.prototype.trim`. -/
def jsTrimLeft : Str → Str
  | [] => []
  | c :: cs => if c.isWhitespace then jsTrimLeft cs else c :: cs

/-- Trailing-whitespace removal via reversal. -/
def jsTrimRight (s : Str) : Str := (jsTrimLeft s.reverse).reverse

/-- JS `String.prototype.trim`: strip whitespace from both ends. -/
def jsTrim (s : Str) : Str := jsTrimRight (jsTrimLeft s)

/-- JS `Array.prototype.join(' ')`: words separated by single spaces. -/
def joinSpace : List Str → Str
  | [] => []
  | [w] => w
  | w :: w' :: ws => w ++ ' ' :: joinSpace (w' :: ws)

/-- Split on each whitespace character (pieces may be empty).  After
filtering out the empty pieces this yields exactly the maximal
non-whitespace runs, i.e. the same token list as JS
`text.split` on a whitespace run followed by a nonempty filter. -/
def wsSplit : Str → List Str
  | [] => [[]]
  | c :: cs =>
    if c.isWhitespace then [] :: wsSplit cs
    else
      match wsSplit cs with
      | [] => [[c]]
      | p :: ps => (c :: p) :: ps

/-- Number of whitespace-delimited non-empty tokens: the embedding of
`text.split` on whitespace runs, filtering words of positive length,
as used for word counting in both services. -/
def countWords (s : Str) : ℕ := ((wsSplit s).filter (fun w => w ≠ [])).length

/-- A word is clean when it is nonempty and neither starts nor ends with
whitespace (the shape of every text produced by the services, which trim
each recognized fragment before storing it). -/
def isCleanWord (t : Str) : Bool :=
  match t.head?, t.getLast? with
  | some a, some b => !a.isWhitespace && !b.isWhitespace
  | _, _ => false

/-- JS `Math.max`-style maximum of a list, `none` on the empty list;
models sorting timestamps descending and taking the first element. -/
def listMax : List ℤ → Option ℤ
  | [] => none
  | x :: xs => some (xs.foldl max x)

/-- JS `Math.round` for the values arising here: `⌊q + 1/2⌋`. -/
def jsRound (q : ℚ) : ℤ := ⌊q + 1/2⌋

/-- Arithmetic mean of a list of rationals (callers guard emptiness). -/
def listMean (l : List ℚ) : ℚ := l.sum / l.length

/-- Connection status enumeration of the store models. -/
inductive ConnStatus
  | disconnected
  | connecting
  | connected
  | error
deriving DecidableEq, Repr

/-- TranscriptionResult from src/app/layout.tsx: `confidence` and
`latency` are optional fields. -/
structure TranscriptionResult where
  text : Str
  timestamp : ℤ
  confidence : Option ℚ
  isFinal : Bool
  latency : Option ℚ
deriving DecidableEq, Repr

/-- TranscriptionMetrics: aggregate latency (ms), accuracy proxy and
word count. -/
structure TranscriptionMetrics where
  latency : ℤ
  accuracy : ℚ
  wordCount : ℕ
deriving DecidableEq, Repr

/-- State of one easy-peasy store module.  `verbumModel.ts` and
`deepgramModel.ts` define textually identical state and actions, so a
single embedding serves both modules. -/
structure StoreState where
  text : Str
  results : List TranscriptionResult
  metrics : TranscriptionMetrics
  isActive : Bool
  connectionStatus : ConnStatus
deriving DecidableEq, Repr

namespace Store

/-- The computed value `finalText`: space-joined texts of all final
results, trimmed. -/
def finalText (results : List TranscriptionResult) : Str :=
  jsTrim (joinSpace ((results.filter (fun r => r.isFinal)).map (fun r => r.text)))

/-- The `addResult` action: push the payload, then recompute `text`.
For a final payload the text is the trimmed space-join of all final
texts; for an interim payload the code joins the final texts WITHOUT
trimming and appends the interim text after a space when that join is
nonempty (JS truthiness of the string). -/
def addResult (s : StoreState) (payload : TranscriptionResult) : StoreState :=
  let results := s.results ++ [payload]
  let text :=
    if payload.isFinal then
      jsTrim (joinSpace ((results.filter (fun r => r.isFinal)).map (fun r => r.text)))
    else
      let finalWords := joinSpace ((results.filter (fun r => r.isFinal)).map (fun r => r.text))
      if finalWords ≠ [] then finalWords ++ ' ' :: payload.text else payload.text
  { s with results := results, text := text }

/-- The object-spread merge performed by `updateMetrics`: every field of
the payload overrides the previous metrics (the TS payload type carries
all three fields). -/
def mergeMetrics (prev payload : TranscriptionMetrics) : TranscriptionMetrics :=
  { prev with
      latency := payload.latency
      accuracy := payload.accuracy
      wordCount := payload.wordCount }

/-- The `updateMetrics` action. -/
def updateMetrics (s : StoreState) (payload : TranscriptionMetrics) : StoreState :=
  { s with metrics := mergeMetrics s.metrics payload }

/-- The `setActive` action. -/
def setActive (s : StoreState) (payload : Bool) : StoreState :=
  { s with isActive := payload }

/-- The `setConnectionStatus` action. -/
def setConnectionStatus (s : StoreState) (payload : ConnStatus) : StoreState :=
  { s with connectionStatus := payload }

/-- The `reset` action: back to the initial model state. -/
def reset (s : StoreState) : StoreState :=
  { s with
      text := []
      results := []
      metrics := { latency := 0, accuracy := 0, wordCount := 0 }
      isActive := false
      connectionStatus := ConnStatus.disconnected }

end Store

/-- The `calculateMetrics` method, textually identical in
`VerbumService` and `DeepgramService` (including the default accuracy
of 95 when no confidence is present):
filter to final results; if none, all-zero metrics; otherwise average
the defined positive latencies (0 when none), average the defined
confidences times 100 (95 when none), and sum the word counts.
The averages are rounded with JS `Math.round`, the accuracy to one
decimal place via `Math.round` of ten times the value, divided by 10. -/
def calculateMetrics (results : List TranscriptionResult) : TranscriptionMetrics :=
  let finalResults := results.filter (fun r => r.isFinal)
  if finalResults.isEmpty then
    { latency := 0, accuracy := 0, wordCount := 0 }
  else
    let latencies :=
      (finalResults.filter
        (fun r => r.latency.isSome && decide (0 < r.latency.getD 0))).filterMap
        (fun r => r.latency)
    let avgLatency : ℚ :=
      if 0 < latencies.length then latencies.sum / latencies.length else 0
    let confidences :=
      (finalResults.filter (fun r => r.confidence.isSome)).filterMap
        (fun r => r.confidence)
    let avgAccuracy : ℚ :=
      if 0 < confidences.length then
        (confidences.sum / confidences.length) * 100
      else 95
    let wordCount := finalResults.foldl (fun acc r => acc + countWords r.text) 0
    { latency := jsRound avgLatency
      accuracy := (jsRound (avgAccuracy * 10) : ℚ) / 10
      wordCount := wordCount }

/-- Little-endian signed 16-bit reinterpretation of a byte sequence,
the embedding of viewing the buffer through an `Int16Array`. -/
def toInt16LE : List ℕ → List ℤ
  | b0 :: b1 :: rest =>
    (let u := b0 + 256 * b1
     if 32768 ≤ u then (u : ℤ) - 65536 else (u : ℤ)) :: toInt16LE rest
  | _ => []

/-- The `detectAudioActivity` method, textually identical in both
services.  Zero or odd byte length: the fraction of bytes above 10 must
exceed 1/10 (on the empty buffer the JS code compares `NaN > 0.1`,
which is false; the rational `0 / 0 = 0` gives the same verdict).
Positive even byte length: the buffer is read as 16-bit signed PCM and
the RMS must exceed 500; since both sides are nonnegative this is
the comparison mean-of-squares > 500 squared, which keeps the
definition executable (no square root).  The JS `try`/`catch` fallback
branch is unreachable in this total embedding. -/
def detectAudioActivity (data : List ℕ) : Bool :=
  if data.length = 0 ∨ data.length % 2 ≠ 0 then
    let activity := (data.filter (fun b => 10 < b)).length
    decide ((activity : ℚ) / data.length > 1/10)
  else
    let samples := toInt16LE data
    let sumSquares : ℤ := (samples.map (fun v => v * v)).sum
    decide ((sumSquares : ℚ) / samples.length > 500 * 500)

/-- The `cleanupOldTimestamps` method, textually identical in both
services: drop every chunk timestamp strictly older than
`now - 10000` ms from the per-chunk timestamp map (embedded as an
association list of chunk id and timestamp). -/
def cleanupOldTimestamps (now : ℤ) (m : List (ℕ × ℤ)) : List (ℕ × ℤ) :=
  m.filter (fun p => ¬ p.2 < now - 10000)

/-- Externally visible resource and network actions performed by the
services; store updates are part of the pure state instead. -/
inductive Effect
  | openConnection
  | emitStreamEnd
  | stopRecorder
  | stopTracks
  | disconnectSocket
  | closeConnection
  | startWebSpeechFallback
deriving DecidableEq, BEq, Repr

/-- Confidence payload of a Verbum speech result: a number or one of
the level strings (anything else, including a missing value, is mapped
to 0.8 by the service). -/
inductive VerbumConfidence
  | num (q : ℚ)
  | levelHigh
  | levelMedium
  | levelLow
  | missing
deriving DecidableEq, Repr

/-- Numeric confidence the Verbum service derives from the payload. -/
def mapVerbumConfidence : VerbumConfidence → ℚ
  | .num q => q
  | .levelHigh => 9/10
  | .levelMedium => 7/10
  | .levelLow => 1/2
  | .missing => 4/5

/-- Status field of a Verbum speech result. -/
inductive VerbumStatus
  | recognized
  | recognizing
deriving DecidableEq, Repr

/-- A `speechRecognized` payload (`VerbumSpeechResult`); the fields the
handler only logs (id, language, words) are omitted, `offset` and
`duration` are kept because the latency claims mention them. -/
structure VerbumSpeechResult where
  text : Str
  confidence : VerbumConfidence
  status : VerbumStatus
  duration : Option ℚ
  offset : Option ℚ
deriving DecidableEq, Repr

/-- Mutable state of a `VerbumService` instance together with its store
module.  `socket = none` models a null socket, `some b` a socket whose
`connected` flag is `b`.  `mediaRecorderActive` covers "a MediaRecorder
exists and its state is not inactive". -/
structure VerbumState where
  socket : Option Bool
  isActive : Bool
  isConnecting : Bool
  startTime : ℤ
  results : List TranscriptionResult
  mediaRecorderActive : Bool
  streamPresent : Bool
  audioChunkTimestamps : List (ℕ × ℤ)
  currentUtteranceStart : ℤ
  audioActivityDetected : Bool
  chunkCounter : ℕ
  store : StoreState
deriving DecidableEq, Repr

namespace VerbumService

/-- The `startTranscription` method on the single-threaded success or
failure path (`connectOk` tells whether the socket `connect` event or
a `connect_error`/timeout arrives).  When the service is already active
or connecting, it returns immediately without touching any state and
without opening a connection. -/
def startTranscription (s : VerbumState) (now : ℤ) (connectOk : Bool) :
    VerbumState × List Effect :=
  if s.isActive || s.isConnecting then (s, [])
  else
    let st := { s with
      startTime := now
      isActive := true
      isConnecting := true
      results := []
      store := Store.setConnectionStatus (Store.setActive s.store true)
                 ConnStatus.connecting }
    if connectOk then
      -- connect handler, then startAudioStreaming resets the
      -- per-session chunk bookkeeping and installs the MediaRecorder
      let st := { st with
        socket := some true
        isActive := true
        isConnecting := false
        store := Store.setActive
                   (Store.setConnectionStatus st.store ConnStatus.connected) true }
      let st := { st with
        streamPresent := true
        chunkCounter := 0
        audioChunkTimestamps := []
        currentUtteranceStart := 0
        audioActivityDetected := false
        mediaRecorderActive := true }
      (st, [Effect.openConnection])
    else
      -- connect_error handler plus the catch block of startTranscription
      let st := { st with
        socket := some false
        isConnecting := false
        store := Store.setConnectionStatus st.store ConnStatus.error }
      (st, [Effect.openConnection, Effect.startWebSpeechFallback])

/-- The `handleSpeechResult` method.  Empty or whitespace-only text is
discarded.  Latency is wall-clock: `now` minus the current utterance
start when one is being timed, else `now` minus the most recent chunk
timestamp of the last 3000 ms (the code sorts the recent timestamps
descending and takes the head, i.e. the maximum), else 0.  A final
status resets the utterance tracking.  The result (with trimmed text,
mapped confidence and clamped latency) is pushed on the service's
result array and handed to the store via the default `onTranscription`
callback; final results additionally recompute the metrics from the
store's result list. -/
def handleSpeechResult (s : VerbumState) (e : VerbumSpeechResult) (now : ℤ) :
    VerbumState :=
  if jsTrim e.text = [] then s
  else
    let calculatedLatency : ℚ :=
      if 0 < s.currentUtteranceStart then ((now - s.currentUtteranceStart : ℤ) : ℚ)
      else
        let recents := (s.audioChunkTimestamps.map (fun p => p.2)).filter
          (fun t => now - 3000 < t)
        match listMax recents with
        | some t => ((now - t : ℤ) : ℚ)
        | none => 0
    let s1 :=
      if e.status = VerbumStatus.recognized then
        { s with audioActivityDetected := false, currentUtteranceStart := 0 }
      else s
    let result : TranscriptionResult := {
      text := jsTrim e.text
      timestamp := now
      confidence := some (mapVerbumConfidence e.confidence)
      isFinal := e.status = VerbumStatus.recognized
      latency := some (max 0 calculatedLatency) }
    let s2 := { s1 with
      results := s1.results ++ [result]
      store := Store.addResult s1.store result }
    if result.isFinal then
      { s2 with
        store := Store.updateMetrics s2.store (calculateMetrics s2.store.results) }
    else s2

/-- The `stopTranscription` method, flattened: every guard reads a
field that the earlier statements of the method leave untouched, so the
sequential body is equivalent to one simultaneous update.  Final
metrics are recomputed from the service's own result array when it is
nonempty. -/
def stopTranscription (s : VerbumState) : VerbumState × List Effect :=
  let metricsStore :=
    if s.results ≠ [] then
      Store.updateMetrics s.store (calculateMetrics s.results)
    else s.store
  let finalStore :=
    Store.setActive (Store.setConnectionStatus metricsStore ConnStatus.disconnected)
      false
  ({ s with
      isActive := false
      isConnecting := false
      mediaRecorderActive := false
      streamPresent := false
      socket := none
      store := finalStore },
   (if s.socket = some true then [Effect.emitStreamEnd] else []) ++
   (if s.mediaRecorderActive then [Effect.stopRecorder] else []) ++
   (if s.streamPresent then [Effect.stopTracks] else []) ++
   (if s.socket ≠ none then [Effect.disconnectSocket] else []))

end VerbumService

/-- A Deepgram transcript event, reduced to the fields the handler
uses: `channel.alternatives[0].transcript`, `.confidence`, `.start`,
`.duration` and `data.is_final` (missing `is_final` is falsy, hence a
plain `Bool`). -/
structure DeepgramEvent where
  text : Str
  confidence : Option ℚ
  start : Option ℚ
  duration : Option ℚ
  isFinal : Bool
deriving DecidableEq, Repr

/-- Mutable state of a `DeepgramService` instance together with its
store module.  `connectionPresent` models a non-null `connection`
object.  The audio cursor is the cumulative seconds of audio sent. -/
structure DeepgramState where
  connectionPresent : Bool
  isActive : Bool
  connectionStartTime : ℤ
  audioActivityDetected : Bool
  currentUtteranceStart : ℤ
  chunkCounter : ℕ
  audioChunkTimestamps : List (ℕ × ℤ)
  audioCursor : ℚ
  sessionStartTime : ℤ
  audioStreamStartTime : ℤ
  mediaRecorderActive : Bool
  streamPresent : Bool
  store : StoreState
deriving DecidableEq, Repr

namespace DeepgramService

/-- RMS-based activity detection on a Float32 chunk: RMS above 0.01,
stated as mean-of-squares above its square to stay executable. -/
def detectAudioActivityFromFloat32 (samples : List ℚ) : Bool :=
  decide (((samples.map (fun x => x * x)).sum) / samples.length > 1/10000)

/-- One firing of the `onaudioprocess` callback of
`startAudioStreaming`: bail out unless a connection exists and the
service is active; allocate a chunk id, record its timestamp, detect
activity and possibly arm the utterance timer, send the converted PCM,
advance the audio cursor by `samples / 16000` seconds, and every 50
chunks clean up old timestamps. -/
def processAudioChunk (s : DeepgramState) (samples : List ℚ) (now : ℤ) :
    DeepgramState :=
  if ¬ s.connectionPresent ∨ ¬ s.isActive then s
  else
    let chunkId := s.chunkCounter
    let s := { s with
      chunkCounter := s.chunkCounter + 1
      audioChunkTimestamps := s.audioChunkTimestamps ++ [(chunkId, now)] }
    let hasActivity := detectAudioActivityFromFloat32 samples
    let s :=
      if ¬ s.audioActivityDetected ∧ hasActivity then
        { s with currentUtteranceStart := now, audioActivityDetected := true }
      else s
    let s := { s with audioCursor := s.audioCursor + (samples.length : ℚ) / 16000 }
    if chunkId % 50 = 0 then
      { s with audioChunkTimestamps := cleanupOldTimestamps now s.audioChunkTimestamps }
    else s

/-- Folding `processAudioChunk` over a sequence of chunks, each a pair
of its Float32 samples and its wall-clock arrival time. -/
def runChunks (s : DeepgramState) (chunks : List (List ℚ × ℤ)) : DeepgramState :=
  chunks.foldl (fun st c => processAudioChunk st c.1 c.2) s

/-- The `handleTranscriptResult` method.  Empty or whitespace-only
transcripts are discarded.  For an interim event whose `start` and
`duration` are both present, latency is Deepgram's official
audio-cursor-minus-transcript-cursor measure in milliseconds, clamped
at 0; for a final event it falls back to wall-clock utterance timing
when one is armed (and the utterance tracking is reset).  A zero
confidence is falsy in JS, so `confidence || 0.95` maps both a missing
and a zero confidence to 0.95.  Final results recompute the metrics
from the store's result list. -/
def handleTranscriptResult (s : DeepgramState) (e : DeepgramEvent) (now : ℤ) :
    DeepgramState :=
  if jsTrim e.text = [] then s
  else
    let calculatedLatency : ℚ :=
      if e.isFinal = false ∧ e.start.isSome = true ∧ e.duration.isSome = true then
        max 0 ((s.audioCursor - (e.start.getD 0 + e.duration.getD 0)) * 1000)
      else if e.isFinal = true ∧ 0 < s.currentUtteranceStart then
        ((now - s.currentUtteranceStart : ℤ) : ℚ)
      else 0
    let s1 :=
      if e.isFinal then
        { s with audioActivityDetected := false, currentUtteranceStart := 0 }
      else s
    let result : TranscriptionResult := {
      text := jsTrim e.text
      timestamp := now
      confidence := some (match e.confidence with
        | some c => if c = 0 then 19/20 else c
        | none => 19/20)
      isFinal := e.isFinal
      latency := some (max 0 calculatedLatency) }
    let s2 := { s1 with store := Store.addResult s1.store result }
    if e.isFinal then
      { s2 with
        store := Store.updateMetrics s2.store (calculateMetrics s2.store.results) }
    else s2

/-- The `stopTranscription` method, flattened like the Verbum one: a
guarded no-op when the service is not active; otherwise stop recorder,
tracks and connection, mark the store disconnected and inactive, and
recompute final metrics from the store's results when nonempty. -/
def stopTranscription (s : DeepgramState) : DeepgramState × List Effect :=
  if ¬ s.isActive then (s, [])
  else
    let statusStore :=
      Store.setConnectionStatus (Store.setActive s.store false)
        ConnStatus.disconnected
    let finalStore :=
      if statusStore.results ≠ [] then
        Store.updateMetrics statusStore (calculateMetrics statusStore.results)
      else statusStore
    ({ s with
        isActive := false
        mediaRecorderActive := false
        streamPresent := false
        connectionPresent := false
        store := finalStore },
     (if s.mediaRecorderActive then [Effect.stopRecorder] else []) ++
     (if s.streamPresent then [Effect.stopTracks] else []) ++
     (if s.connectionPresent then [Effect.closeConnection] else []))

/-- The non-guarded body of `startTranscription` on the success path:
reset the store, mark the service active and connecting, create the
live connection, mark it connected, and run `startAudioStreaming`'s
per-session reset (chunk bookkeeping and audio cursor back to zero). -/
def startBody (s : DeepgramState) (now : ℤ) : DeepgramState × List Effect :=
  let st := { s with
    store := Store.reset s.store
    connectionStartTime := now
    isActive := true }
  let st := { st with
    store := Store.setActive
               (Store.setConnectionStatus st.store ConnStatus.connecting) true }
  let st := { st with
    connectionPresent := true
    store := Store.setConnectionStatus st.store ConnStatus.connected }
  let st := { st with
    streamPresent := true
    chunkCounter := 0
    audioChunkTimestamps := []
    currentUtteranceStart := 0
    audioActivityDetected := false
    audioCursor := 0
    sessionStartTime := now
    audioStreamStartTime := now }
  (st, [Effect.openConnection])

/-- The `startTranscription` method: when the service is already
active it first awaits `stopTranscription` (stopping the current
session) and then starts a fresh one. -/
def startTranscription (s : DeepgramState) (now : ℤ) :
    DeepgramState × List Effect :=
  if s.isActive then
    let p := stopTranscription s
    let q := startBody p.1 now
    (q.1, p.2 ++ q.2)
  else startBody s now

end DeepgramService

/-!  Specification-side definitions and helper lemmas.  -/

/-- Modelled on the spec's wording for the metrics calculator
(section 4.6): mean of the present positive latencies rounded to an
integer, mean of the present confidences times 100 rounded to one
decimal (default 95 with no confidences), and the total token count
over all final texts.  Compared against `calculateMetrics` below. -/
def specCalculateMetrics (results : List TranscriptionResult) : TranscriptionMetrics :=
  let finals := results.filter (fun r => r.isFinal)
  if finals = [] then { latency := 0, accuracy := 0, wordCount := 0 }
  else
    let posLatencies := (finals.filterMap (fun r => r.latency)).filter
      (fun q => decide (0 < q))
    let confidences := finals.filterMap (fun r => r.confidence)
    { latency := if posLatencies = [] then 0 else jsRound (listMean posLatencies)
      accuracy := if confidences = [] then 95
                  else (jsRound (listMean confidences * 100 * 10) : ℚ) / 10
      wordCount := (finals.map (fun r => countWords r.text)).sum }

lemma filter_some_pos_filterMap (l : List TranscriptionResult) :
    (l.filter
      (fun r => r.latency.isSome && decide (0 < r.latency.getD 0))).filterMap
      (fun r => r.latency)
    = (l.filterMap (fun r => r.latency)).filter (fun q => decide (0 < q)) := by
  induction l with
  | nil => rfl
  | cons r t ih =>
    cases h : r.latency with
    | none => simp [List.filter_cons, List.filterMap_cons, h, ih]
    | some q =>
      by_cases hq : 0 < q
      · simp [List.filter_cons, List.filterMap_cons, h, hq, ih]
      · simp [List.filter_cons, List.filterMap_cons, h, hq, ih]

lemma filter_isSome_filterMap (l : List TranscriptionResult) :
    (l.filter (fun r => r.confidence.isSome)).filterMap (fun r => r.confidence)
    = l.filterMap (fun r => r.confidence) := by
  induction l with
  | nil => rfl
  | cons r t ih =>
    cases h : r.confidence with
    | none => simp [List.filter_cons, List.filterMap_cons, h, ih]
    | some q => simp [List.filter_cons, List.filterMap_cons, h, ih]

lemma foldl_add_countWords (l : List TranscriptionResult) (n : ℕ) :
    l.foldl (fun acc r => acc + countWords r.text) n
    = n + (l.map (fun r => countWords r.text)).sum := by
  induction l generalizing n with
  | nil => simp
  | cons r t ih => simp [List.foldl_cons, ih]; omega

lemma jsRound_zero : jsRound 0 = 0 := by norm_num [jsRound]

lemma jsRound_of_int (n : ℤ) : jsRound (n : ℚ) = n := by
  rw [jsRound, Int.floor_int_add]
  norm_num

/-- C4: restricted to the final results, `calculateMetrics` returns the
all-zero metrics when the restriction is empty, and otherwise the
rounded mean of the present positive latencies (0 when none), the mean
of the present confidences times 100 rounded to one decimal place (95
when no confidence is present), and the total count of
whitespace-delimited non-empty tokens over all final texts. -/
theorem calculateMetrics_correct (results : List TranscriptionResult) :
    calculateMetrics results = specCalculateMetrics results := by
  simp only [calculateMetrics, specCalculateMetrics]
  by_cases h : results.filter (fun r => r.isFinal) = []
  · simp [h]
  · have hne : (results.filter (fun r => r.isFinal)).isEmpty = false := by
      simpa [List.isEmpty_iff] using h
    simp only [hne, h, Bool.false_eq_true, if_false,
      filter_some_pos_filterMap, filter_isSome_filterMap, foldl_add_countWords,
      Nat.zero_add, TranscriptionMetrics.mk.injEq]
    refine ⟨?_, ?_, trivial⟩
    · by_cases hp :
        ((results.filter (fun r => r.isFinal)).filterMap
          (fun r => r.latency)).filter (fun q => decide (0 < q)) = []
      · simp [hp, jsRound_zero]
      · have : 0 < (((results.filter (fun r => r.isFinal)).filterMap
          (fun r => r.latency)).filter (fun q => decide (0 < q))).length :=
          List.length_pos.mpr hp
        simp [hp, this, listMean]
    · by_cases hc :
        (results.filter (fun r => r.isFinal)).filterMap (fun r => r.confidence) = []
      · have h950 : jsRound ((95 : ℚ) * 10) = 950 := by norm_num [jsRound]
        simp [hc, h950]
        norm_num
      · have : 0 < ((results.filter (fun r => r.isFinal)).filterMap
          (fun r => r.confidence)).length := List.length_pos.mpr hc
        simp [hc, this, listMean]

/-- C9: an entry survives `cleanupOldTimestamps` at wall-clock time
`now` exactly when it was present before and its timestamp is at least
`now - 10000` ms, so after cleanup the per-chunk timestamp map only
retains entries from the last 10 seconds. -/
theorem cleanupOldTimestamps_bound (now : ℤ) (m : List (ℕ × ℤ)) (p : ℕ × ℤ) :
    p ∈ cleanupOldTimestamps now m ↔ p ∈ m ∧ now - 10000 ≤ p.2 := by
  simp [cleanupOldTimestamps, List.mem_filter, not_lt]

/-- C10: the store actions `setActive`, `setConnectionStatus` and
`updateMetrics` each modify only their own field, leaving `text` and
`results` (and the respective other fields) unchanged; `updateMetrics`
replaces the metrics with the spread-merge of the payload over the
previous metrics object. -/
theorem store_actions_frame (s : StoreState) (b : Bool) (c : ConnStatus)
    (m : TranscriptionMetrics) :
    ((Store.setActive s b).text = s.text ∧
     (Store.setActive s b).results = s.results ∧
     (Store.setActive s b).metrics = s.metrics ∧
     (Store.setActive s b).connectionStatus = s.connectionStatus ∧
     (Store.setActive s b).isActive = b) ∧
    ((Store.setConnectionStatus s c).text = s.text ∧
     (Store.setConnectionStatus s c).results = s.results ∧
     (Store.setConnectionStatus s c).metrics = s.metrics ∧
     (Store.setConnectionStatus s c).isActive = s.isActive ∧
     (Store.setConnectionStatus s c).connectionStatus = c) ∧
    ((Store.updateMetrics s m).text = s.text ∧
     (Store.updateMetrics s m).results = s.results ∧
     (Store.updateMetrics s m).isActive = s.isActive ∧
     (Store.updateMetrics s m).connectionStatus = s.connectionStatus ∧
     (Store.updateMetrics s m).metrics = Store.mergeMetrics s.metrics m) :=
  ⟨⟨rfl, rfl, rfl, rfl, rfl⟩, ⟨rfl, rfl, rfl, rfl, rfl⟩,
   ⟨rfl, rfl, rfl, rfl, rfl⟩⟩

lemma rat_div_lt_iff_real (a : ℤ) (n : ℕ) (c : ℚ) :
    (c < (a : ℚ) / (n : ℚ)) ↔ ((c : ℝ) < (a : ℝ) / (n : ℝ)) := by
  rw [show ((a : ℝ)) = (((a : ℚ)) : ℝ) from by push_cast; ring,
      show ((n : ℝ)) = (((n : ℚ)) : ℝ) from by push_cast; ring,
      ← Rat.cast_div, Rat.cast_lt]

/-- C8: `detectAudioActivity` reports activity on a nonempty
even-length buffer exactly when the RMS of its 16-bit signed samples
exceeds 500, on an odd-length buffer exactly when the fraction of
bytes above 10 exceeds one tenth, and never on the empty buffer.  The
function is total, so it cannot throw; the JS catch-fallback branch is
dead in this model. -/
theorem detectAudioActivity_spec (data : List ℕ) :
    (data.length % 2 = 0 → data ≠ [] →
      (detectAudioActivity data = true ↔
        (500 : ℝ) < Real.sqrt
          (((((toInt16LE data).map (fun v => v * v)).sum : ℤ) : ℝ) /
            ((toInt16LE data).length : ℝ)))) ∧
    (data.length % 2 = 1 →
      (detectAudioActivity data = true ↔
        (1/10 : ℚ) < ((data.filter (fun b => 10 < b)).length : ℚ) /
          (data.length : ℚ))) ∧
    (data = [] → detectAudioActivity data = false) := by
  refine ⟨?_, ?_, ?_⟩
  · intro heven hne
    have hlen : data.length ≠ 0 := fun h => hne (List.length_eq_zero.mp h)
    have hcond : ¬(data.length = 0 ∨ data.length % 2 ≠ 0) := by
      rintro (h | h)
      exacts [hlen h, h heven]
    simp only [detectAudioActivity]
    rw [if_neg hcond, decide_eq_true_eq,
        Real.lt_sqrt (by norm_num : (0 : ℝ) ≤ 500), gt_iff_lt,
        rat_div_lt_iff_real]
    norm_num
  · intro hodd
    have hcond : data.length = 0 ∨ data.length % 2 ≠ 0 := Or.inr (by omega)
    simp only [detectAudioActivity]
    rw [if_pos hcond, decide_eq_true_eq, gt_iff_lt]
  · intro h
    subst h
    simp only [detectAudioActivity]
    norm_num

/-- Witness for C8 at a concrete odd-length buffer: all three bytes of
`[20, 20, 20]` exceed 10, so the fraction is 1 and activity holds. -/
theorem detectAudioActivity_spec_witness :
    detectAudioActivity [20, 20, 20] = true := by
  rw [(detectAudioActivity_spec [20, 20, 20]).2.1 (by decide)]
  norm_num [List.filter]

/-- C7: for both services, calling `stopTranscription` a second time
returns the state of the first call unchanged and performs no further
resource-releasing effect (no recorder stop, no track stop, no
socket close), and the first Verbum stop already leaves the socket
null, the stream released, the recorder gone and the store
disconnected and inactive. -/
theorem stopTranscription_idempotent (sv : VerbumState) (sd : DeepgramState) :
    VerbumService.stopTranscription (VerbumService.stopTranscription sv).1
      = ((VerbumService.stopTranscription sv).1, []) ∧
    DeepgramService.stopTranscription (DeepgramService.stopTranscription sd).1
      = ((DeepgramService.stopTranscription sd).1, []) ∧
    (VerbumService.stopTranscription sv).1.socket = none ∧
    (VerbumService.stopTranscription sv).1.streamPresent = false ∧
    (VerbumService.stopTranscription sv).1.mediaRecorderActive = false ∧
    (VerbumService.stopTranscription sv).1.store.connectionStatus
      = ConnStatus.disconnected ∧
    (VerbumService.stopTranscription sv).1.store.isActive = false := by
  refine ⟨?_, ?_, rfl, rfl, rfl, rfl, rfl⟩
  · by_cases h : sv.results = []
    · simp [VerbumService.stopTranscription, h, Store.updateMetrics,
        Store.setActive, Store.setConnectionStatus, Store.mergeMetrics]
    · simp [VerbumService.stopTranscription, h, Store.updateMetrics,
        Store.setActive, Store.setConnectionStatus, Store.mergeMetrics]
  · by_cases h : sd.isActive = true
    · simp [DeepgramService.stopTranscription, h]
    · simp [DeepgramService.stopTranscription, h]

lemma processAudioChunk_invariants (s : DeepgramState) (samples : List ℚ)
    (now : ℤ) (hc : s.connectionPresent = true) (ha : s.isActive = true) :
    (DeepgramService.processAudioChunk s samples now).audioCursor
      = s.audioCursor + (samples.length : ℚ) / 16000 ∧
    (DeepgramService.processAudioChunk s samples now).connectionPresent = true ∧
    (DeepgramService.processAudioChunk s samples now).isActive = true := by
  simp only [DeepgramService.processAudioChunk, hc, ha]
  norm_num
  constructor
  · split <;> split <;> rfl
  constructor
  · split <;> split <;> rfl
  · split <;> split <;> rfl

lemma runChunks_cursor (chunks : List (List ℚ × ℤ)) :
    ∀ (s : DeepgramState), s.connectionPresent = true → s.isActive = true →
      (DeepgramService.runChunks s chunks).audioCursor
        = s.audioCursor + (chunks.map (fun c => (c.1.length : ℚ) / 16000)).sum ∧
      (DeepgramService.runChunks s chunks).connectionPresent = true ∧
      (DeepgramService.runChunks s chunks).isActive = true := by
  induction chunks with
  | nil =>
    intro s hc ha
    simp [DeepgramService.runChunks, hc, ha]
  | cons c t ih =>
    intro s hc ha
    obtain ⟨h1, h2, h3⟩ := processAudioChunk_invariants s c.1 c.2 hc ha
    obtain ⟨g1, g2, g3⟩ := ih (DeepgramService.processAudioChunk s c.1 c.2) h2 h3
    refine ⟨?_, ?_, ?_⟩
    · show (DeepgramService.runChunks
        (DeepgramService.processAudioChunk s c.1 c.2) t).audioCursor = _
      rw [g1, h1]
      simp [List.sum_cons]
      ring
    · exact g2
    · exact g3

lemma handleTranscriptResult_cursor (s : DeepgramState) (e : DeepgramEvent)
    (now : ℤ) :
    (DeepgramService.handleTranscriptResult s e now).audioCursor
      = s.audioCursor := by
  simp only [DeepgramService.handleTranscriptResult]
  split
  · rfl
  · split <;> split <;> rfl

lemma sum_take_mono (L : List ℚ) (hL : ∀ x ∈ L, 0 ≤ x) (n m : ℕ) (h : n ≤ m) :
    (L.take n).sum ≤ (L.take m).sum := by
  have hsplit : (L.take m).take n ++ (L.take m).drop n = L.take m :=
    List.take_append_drop n (L.take m)
  have htn : (L.take m).take n = L.take n := by
    rw [List.take_take, Nat.min_eq_left h]
  calc (L.take n).sum
      = ((L.take m).take n).sum := by rw [htn]
    _ ≤ ((L.take m).take n).sum + ((L.take m).drop n).sum := by
        have : 0 ≤ ((L.take m).drop n).sum := by
          apply List.sum_nonneg
          intro x hx
          exact hL x (List.mem_of_mem_take (List.mem_of_mem_drop hx))
        linarith
    _ = (L.take m).sum := by rw [← List.sum_append, hsplit]

/-- C6: starting from a reset cursor, running any sequence of audio
chunks through `processAudioChunk` leaves the audio cursor equal to the
exact sum of the per-chunk durations (samples over the 16 kHz rate)
after every prefix; the cursor is non-decreasing along the sequence
(each duration being nonnegative by construction), and interleaved
transcript handling does not move it. -/
theorem audioCursor_prefix_sum (s : DeepgramState) (chunks : List (List ℚ × ℤ))
    (hc : s.connectionPresent = true) (ha : s.isActive = true)
    (h0 : s.audioCursor = 0) :
    (∀ n, (DeepgramService.runChunks s (chunks.take n)).audioCursor
        = ((chunks.take n).map (fun c => (c.1.length : ℚ) / 16000)).sum) ∧
    (∀ n m, n ≤ m →
      (DeepgramService.runChunks s (chunks.take n)).audioCursor
        ≤ (DeepgramService.runChunks s (chunks.take m)).audioCursor) ∧
    (∀ e now, (DeepgramService.handleTranscriptResult
        (DeepgramService.runChunks s chunks) e now).audioCursor
        = (DeepgramService.runChunks s chunks).audioCursor) := by
  have key : ∀ k, (DeepgramService.runChunks s (chunks.take k)).audioCursor
      = ((chunks.take k).map (fun c => (c.1.length : ℚ) / 16000)).sum := by
    intro k
    rw [(runChunks_cursor (chunks.take k) s hc ha).1, h0, zero_add]
  refine ⟨key, ?_, ?_⟩
  · intro n m h
    rw [key n, key m, List.map_take, List.map_take]
    apply sum_take_mono
    · intro x hx
      obtain ⟨c, _, rfl⟩ := List.mem_map.mp hx
      positivity
    · exact h
  · intro e now
    exact handleTranscriptResult_cursor _ e now

/-- Witness for C6: a session with a reset cursor that receives one
two-sample chunk ends with the cursor at 2/16000 = 1/8000 seconds. -/
theorem audioCursor_prefix_sum_witness :
    (DeepgramService.runChunks
      { connectionPresent := true, isActive := true, connectionStartTime := 0,
        audioActivityDetected := false, currentUtteranceStart := 0,
        chunkCounter := 0, audioChunkTimestamps := [], audioCursor := 0,
        sessionStartTime := 0, audioStreamStartTime := 0,
        mediaRecorderActive := false, streamPresent := true,
        store := { text := [], results := [],
                   metrics := { latency := 0, accuracy := 0, wordCount := 0 },
                   isActive := false,
                   connectionStatus := ConnStatus.disconnected } }
      [([0, 0], 5)]).audioCursor = 1/8000 := by
  have h := (audioCursor_prefix_sum
    { connectionPresent := true, isActive := true, connectionStartTime := 0,
      audioActivityDetected := false, currentUtteranceStart := 0,
      chunkCounter := 0, audioChunkTimestamps := [], audioCursor := 0,
      sessionStartTime := 0, audioStreamStartTime := 0,
      mediaRecorderActive := false, streamPresent := true,
      store := { text := [], results := [],
                 metrics := { latency := 0, accuracy := 0, wordCount := 0 },
                 isActive := false,
                 connectionStatus := ConnStatus.disconnected } }
    [([0, 0], 5)] rfl rfl rfl).1 1
  simp only [List.take, List.map, List.sum_cons, List.sum_nil] at h
  rw [h]
  norm_num

/-- A Deepgram session in mid-stream: active, connection present, one
final result already stored; used to exercise the restart path. -/
def dgActive : DeepgramState :=
  { connectionPresent := true, isActive := true, connectionStartTime := 0,
    audioActivityDetected := false, currentUtteranceStart := 0,
    chunkCounter := 7, audioChunkTimestamps := [], audioCursor := 0,
    sessionStartTime := 0, audioStreamStartTime := 0,
    mediaRecorderActive := false, streamPresent := true,
    store := { text := ['x'],
               results := [{ text := ['x'], timestamp := 0, confidence := none,
                             isFinal := true, latency := none }],
               metrics := { latency := 0, accuracy := 0, wordCount := 0 },
               isActive := true, connectionStatus := ConnStatus.connected } }

/-- A Verbum session that is currently streaming. -/
def vbActive : VerbumState :=
  { socket := some true, isActive := true, isConnecting := false,
    startTime := 0, results := [], mediaRecorderActive := true,
    streamPresent := true, audioChunkTimestamps := [],
    currentUtteranceStart := 0, audioActivityDetected := false,
    chunkCounter := 0,
    store := { text := [], results := [],
               metrics := { latency := 0, accuracy := 0, wordCount := 0 },
               isActive := true, connectionStatus := ConnStatus.connected } }

/-- C1 (amended): the Verbum service's `startTranscription` is a
guarded no-op while already active or connecting — state untouched and
no connection opened.  The Deepgram service instead opens exactly one
new connection per `startTranscription` call; when a session with a
live connection is already active it first runs its stop path, closing
the old connection strictly before the new open, so at most one
transport connection exists per session at any time. -/
theorem duplicate_start_guard (sv : VerbumState) (now : ℤ) (ok : Bool)
    (sd : DeepgramState) (dnow : ℤ) :
    (sv.isActive = true ∨ sv.isConnecting = true →
      VerbumService.startTranscription sv now ok = (sv, [])) ∧
    ((DeepgramService.startTranscription sd dnow).2.count Effect.openConnection
      = 1) ∧
    (sd.isActive = true → sd.connectionPresent = true →
      ∃ pre, (DeepgramService.startTranscription sd dnow).2
          = pre ++ [Effect.openConnection] ∧ Effect.closeConnection ∈ pre) := by
  refine ⟨?_, ?_, ?_⟩
  · intro h
    have hb : (sv.isActive || sv.isConnecting) = true := by
      rcases h with h | h <;> simp [h]
    simp [VerbumService.startTranscription, hb]
  · by_cases h : sd.isActive = true
    · simp only [DeepgramService.startTranscription, h, if_true]
      rw [List.count_append]
      have hstop : (DeepgramService.stopTranscription sd).2.count
          Effect.openConnection = 0 := by
        simp only [DeepgramService.stopTranscription, h]
        norm_num
        refine ⟨?_, ?_, ?_⟩ <;> split <;> rfl
      rw [hstop]
      rfl
    · simp only [DeepgramService.startTranscription, h, if_false]
      rfl
  · intro hact hcp
    refine ⟨(DeepgramService.stopTranscription sd).2, ?_, ?_⟩
    · simp [DeepgramService.startTranscription, hact, DeepgramService.startBody]
    · simp only [DeepgramService.stopTranscription, hact]
      norm_num
      simp [hcp]

/-- Counterexample for C1 as stated: a Deepgram session that is
already streaming (active, connected, one stored result).  Calling
`startTranscription` again is not a no-op: the store is reset — the
stored results vanish — and an additional transport connection is
opened (after closing the previous one). -/
theorem duplicate_start_cx :
    dgActive.isActive = true ∧
    dgActive.store.results ≠ [] ∧
    (DeepgramService.startTranscription dgActive 5000).1.store.results = [] ∧
    (DeepgramService.startTranscription dgActive 5000).2
      = [Effect.stopTracks, Effect.closeConnection, Effect.openConnection] := by
  refine ⟨rfl, by simp [dgActive], rfl, by decide⟩

/-- Witness for C1 at concrete states: the streaming Verbum session is
left untouched with no effects, and the streaming Deepgram session's
restart closes the old connection before the single new open. -/
theorem duplicate_start_guard_witness :
    VerbumService.startTranscription vbActive 9 true = (vbActive, []) ∧
    (∃ pre, (DeepgramService.startTranscription dgActive 7).2
        = pre ++ [Effect.openConnection] ∧ Effect.closeConnection ∈ pre) :=
  ⟨(duplicate_start_guard vbActive 9 true dgActive 7).1 (Or.inl rfl),
   (duplicate_start_guard vbActive 9 true dgActive 7).2.2 rfl rfl⟩

/-- Latency stored with the most recent result of a result list. -/
def lastLatency (l : List TranscriptionResult) : Option ℚ :=
  l.getLast?.bind (fun r => r.latency)

lemma deepgram_interim_latency (sd : DeepgramState) (e : DeepgramEvent)
    (now : ℤ) (o d : ℚ) (ht : jsTrim e.text ≠ []) (hf : e.isFinal = false)
    (ho : e.start = some o) (hd : e.duration = some d) :
    lastLatency (DeepgramService.handleTranscriptResult sd e now).store.results
      = some (max 0 ((sd.audioCursor - (o + d)) * 1000)) := by
  simp only [DeepgramService.handleTranscriptResult, lastLatency]
  rw [if_neg ht]
  rw [if_pos (show e.isFinal = false ∧ e.start.isSome = true ∧
      e.duration.isSome = true from ⟨hf, by rw [ho]; rfl, by rw [hd]; rfl⟩)]
  simp only [hf, Bool.false_eq_true, if_false, Store.addResult,
    List.getLast?_concat, Option.some_bind, ho, hd, Option.getD_some]
  rw [← max_assoc, max_self]

lemma verbum_ignores_offset (sv : VerbumState) (e : VerbumSpeechResult)
    (now : ℤ) (o1 d1 o2 d2 : Option ℚ) :
    VerbumService.handleSpeechResult sv { e with offset := o1, duration := d1 } now
      = VerbumService.handleSpeechResult sv
          { e with offset := o2, duration := d2 } now := by
  cases e
  rfl

lemma verbum_wallclock (sv : VerbumState) (e : VerbumSpeechResult) (now : ℤ)
    (ht : jsTrim e.text ≠ []) (hu : 0 < sv.currentUtteranceStart) :
    lastLatency (VerbumService.handleSpeechResult sv e now).results
      = some (max 0 ((now - sv.currentUtteranceStart : ℤ) : ℚ)) := by
  simp only [VerbumService.handleSpeechResult, lastLatency]
  rw [if_neg ht, if_pos hu]
  by_cases hs : e.status = VerbumStatus.recognized
  · simp [hs, List.getLast?_concat]
  · simp [hs, List.getLast?_concat]

/-- C2 (amended): only the Deepgram adapter computes the stored latency
of an interim event carrying `start` and `duration` as
`max 0 ((audioCursor − (start + duration)) × 1000)` milliseconds; the
Verbum adapter's result is entirely independent of the event's
`offset` and `duration`, and while an utterance is being timed it
stores the wall-clock difference `now − currentUtteranceStart`
instead. -/
theorem latency_formula_amended :
    (∀ (sd : DeepgramState) (e : DeepgramEvent) (now : ℤ) (o d : ℚ),
      jsTrim e.text ≠ [] → e.isFinal = false → e.start = some o →
      e.duration = some d →
      lastLatency (DeepgramService.handleTranscriptResult sd e now).store.results
        = some (max 0 ((sd.audioCursor - (o + d)) * 1000))) ∧
    (∀ (sv : VerbumState) (e : VerbumSpeechResult) (now : ℤ)
      (o1 d1 o2 d2 : Option ℚ),
      VerbumService.handleSpeechResult sv
          { e with offset := o1, duration := d1 } now
        = VerbumService.handleSpeechResult sv
            { e with offset := o2, duration := d2 } now) ∧
    (∀ (sv : VerbumState) (e : VerbumSpeechResult) (now : ℤ),
      jsTrim e.text ≠ [] → 0 < sv.currentUtteranceStart →
      lastLatency (VerbumService.handleSpeechResult sv e now).results
        = some (max 0 ((now - sv.currentUtteranceStart : ℤ) : ℚ))) :=
  ⟨fun sd e now o d ht hf ho hd =>
      deepgram_interim_latency sd e now o d ht hf ho hd,
   fun sv e now o1 d1 o2 d2 => verbum_ignores_offset sv e now o1 d1 o2 d2,
   fun sv e now ht hu => verbum_wallclock sv e now ht hu⟩

/-- A Verbum session with an armed utterance timer (start 1000 ms) that
has submitted five 20 ms chunks, i.e. 0.1 s of audio. -/
def vsUtter : VerbumState :=
  { vbActive with
      currentUtteranceStart := 1000
      audioActivityDetected := true
      chunkCounter := 5 }

/-- An interim Verbum event whose backend-reported position is
offset 0.02 s and duration 0.03 s (transcript cursor 0.05 s). -/
def evInterim : VerbumSpeechResult :=
  { text := ['h', 'i'], confidence := VerbumConfidence.missing,
    status := VerbumStatus.recognizing,
    duration := some (3/100), offset := some (1/50) }

/-- Counterexample for C2 as stated: at wall-clock 1300 ms the Verbum
adapter stores latency 300 ms for `evInterim`, whereas the claimed
cursor formula evaluates to 50 ms for the 0.1 s of audio submitted in
this scenario — the Verbum adapter does not compute the cursor
formula. -/
theorem latency_formula_cx :
    lastLatency (VerbumService.handleSpeechResult vsUtter evInterim 1300).results
      = some 300 ∧
    max 0 (((1/10 : ℚ) - (1/50 + 3/100)) * 1000) = 50 ∧
    (300 : ℚ) ≠ 50 := by
  refine ⟨?_, by norm_num, by norm_num⟩
  rw [verbum_wallclock vsUtter evInterim 1300 (by decide) (by decide)]
  simp only [vsUtter, vbActive]
  norm_num

/-- A Deepgram session whose audio cursor stands at 0.1 s. -/
def dgStream : DeepgramState := { dgActive with audioCursor := 1/10 }

/-- An interim Deepgram event at transcript cursor 0.02 + 0.03 s. -/
def dgEvInterim : DeepgramEvent :=
  { text := ['h', 'i'], confidence := some (9/10), start := some (1/50),
    duration := some (3/100), isFinal := false }

/-- Witness for C2: the Deepgram adapter stores
`max 0 ((0.1 − 0.05) × 1000) = 50` ms for the concrete interim event. -/
theorem latency_formula_amended_witness :
    lastLatency
      (DeepgramService.handleTranscriptResult dgStream dgEvInterim 1300).store.results
      = some 50 := by
  have h := latency_formula_amended.1 dgStream dgEvInterim 1300 (1/50) (3/100)
    (by decide) rfl rfl rfl
  rw [h]
  simp only [dgStream, dgActive]
  norm_num

lemma verbum_final_no_fallback (sv : VerbumState) (e : VerbumSpeechResult)
    (now : ℤ) (ht : jsTrim e.text ≠ [])
    (hs : e.status = VerbumStatus.recognized)
    (hu : ¬ 0 < sv.currentUtteranceStart)
    (hts : ∀ p ∈ sv.audioChunkTimestamps, ¬ now - 3000 < p.2) :
    lastLatency (VerbumService.handleSpeechResult sv e now).results = some 0 := by
  simp only [VerbumService.handleSpeechResult, lastLatency]
  rw [if_neg ht, if_neg hu]
  have hrec : ((sv.audioChunkTimestamps.map (fun p => p.2)).filter
      (fun t => now - 3000 < t)) = [] := by
    rw [List.filter_eq_nil_iff]
    intro t htk
    obtain ⟨p, hp, rfl⟩ := List.mem_map.mp htk
    simpa using hts p hp
  rw [hrec]
  simp [hs, List.getLast?_concat, listMax]

lemma deepgram_final_no_fallback (sd : DeepgramState) (e : DeepgramEvent)
    (now : ℤ) (ht : jsTrim e.text ≠ []) (hf : e.isFinal = true)
    (hu : ¬ 0 < sd.currentUtteranceStart) :
    lastLatency (DeepgramService.handleTranscriptResult sd e now).store.results
      = some 0 := by
  simp only [DeepgramService.handleTranscriptResult, lastLatency]
  rw [if_neg ht]
  rw [if_neg (show ¬ (e.isFinal = false ∧ e.start.isSome = true ∧
      e.duration.isSome = true) from fun hc => by simp [hf] at hc)]
  rw [if_neg (show ¬ (e.isFinal = true ∧ 0 < sd.currentUtteranceStart) from
      fun hc => hu hc.2)]
  simp [hf, Store.addResult, Store.updateMetrics, Store.mergeMetrics,
    List.getLast?_concat]

/-- C3 (amended): for a final recognition event with no usable
offset/duration pair, when the utterance timer is unarmed (start not
positive) and no recent chunk-timestamp fallback applies, both
adapters store latency 0 on the result — the `latency` field is set to
a defined zero, not left undefined. -/
theorem final_latency_defined_zero :
    (∀ (sv : VerbumState) (e : VerbumSpeechResult) (now : ℤ),
      jsTrim e.text ≠ [] → e.status = VerbumStatus.recognized →
      ¬ 0 < sv.currentUtteranceStart →
      (∀ p ∈ sv.audioChunkTimestamps, ¬ now - 3000 < p.2) →
      lastLatency (VerbumService.handleSpeechResult sv e now).results
        = some 0) ∧
    (∀ (sd : DeepgramState) (e : DeepgramEvent) (now : ℤ),
      jsTrim e.text ≠ [] → e.isFinal = true →
      ¬ 0 < sd.currentUtteranceStart →
      lastLatency (DeepgramService.handleTranscriptResult sd e now).store.results
        = some 0) :=
  ⟨fun sv e now ht hs hu hts => verbum_final_no_fallback sv e now ht hs hu hts,
   fun sd e now ht hf hu => deepgram_final_no_fallback sd e now ht hf hu⟩

/-- A final Deepgram event with no positional metadata. -/
def evFinalPlain : DeepgramEvent :=
  { text := ['o', 'k'], confidence := none, start := none, duration := none,
    isFinal := true }

/-- Counterexample for C3 as stated: on a session whose utterance timer
is unarmed, the final event's stored latency is the defined value
`some 0` — not the absent value the claim requires. -/
theorem final_latency_cx :
    lastLatency
      (DeepgramService.handleTranscriptResult dgActive evFinalPlain 5000).store.results
      = some 0 ∧
    some (0 : ℚ) ≠ (none : Option ℚ) :=
  ⟨deepgram_final_no_fallback dgActive evFinalPlain 5000 (by decide) rfl
    (by decide), by simp⟩

/-- A final Verbum event with no positional metadata. -/
def evVerbumFinal : VerbumSpeechResult :=
  { text := ['o', 'k'], confidence := VerbumConfidence.missing,
    status := VerbumStatus.recognized, duration := none, offset := none }

/-- Witness for C3 on the Verbum side: unarmed timer, no stored chunk
timestamps, final event — the stored latency is the defined zero. -/
theorem final_latency_defined_zero_witness :
    lastLatency (VerbumService.handleSpeechResult vbActive evVerbumFinal 5000).results
      = some 0 :=
  final_latency_defined_zero.1 vbActive evVerbumFinal 5000 (by decide) rfl
    (by decide) (by simp [vbActive])

lemma isCleanWord_ne_nil {w : Str} (h : isCleanWord w = true) : w ≠ [] := by
  intro hw
  subst hw
  simp [isCleanWord] at h

lemma isCleanWord_head {w : Str} (h : isCleanWord w = true) :
    ∀ c, w.head? = some c → c.isWhitespace = false := by
  intro c hc
  cases hl : w.getLast? with
  | none => simp [isCleanWord, hc, hl] at h
  | some b =>
    simp only [isCleanWord, hc, hl, Bool.and_eq_true, Bool.not_eq_true'] at h
    exact h.1

lemma isCleanWord_last {w : Str} (h : isCleanWord w = true) :
    ∀ c, w.getLast? = some c → c.isWhitespace = false := by
  intro c hc
  cases hh : w.head? with
  | none => simp [isCleanWord, hc, hh] at h
  | some a =>
    simp only [isCleanWord, hc, hh, Bool.and_eq_true, Bool.not_eq_true'] at h
    exact h.2

lemma jsTrimLeft_cons_nonws {c : Char} (hc : c.isWhitespace = false) (l : Str) :
    jsTrimLeft (c :: l) = c :: l := by
  simp [jsTrimLeft, hc]

lemma jsTrim_eq_self_of (l : Str)
    (hHead : ∀ c, l.head? = some c → c.isWhitespace = false)
    (hLast : ∀ c, l.getLast? = some c → c.isWhitespace = false) :
    jsTrim l = l := by
  cases l with
  | nil => rfl
  | cons a t =>
    have ha := hHead a rfl
    rw [jsTrim, jsTrimLeft_cons_nonws ha, jsTrimRight]
    cases hrev : (a :: t).reverse with
    | nil => simp at hrev
    | cons b u =>
      have hb : b.isWhitespace = false := by
        apply hLast
        rw [← List.head?_reverse, hrev]
        rfl
      rw [jsTrimLeft_cons_nonws hb, ← hrev, List.reverse_reverse]

lemma joinSpace_cons_head? (w : Str) (ws : List Str) (hw : w ≠ []) :
    (joinSpace (w :: ws)).head? = w.head? := by
  cases ws with
  | nil => rfl
  | cons w2 ws2 =>
    cases w with
    | nil => exact absurd rfl hw
    | cons a t => rfl

lemma joinSpace_ne_nil (w : Str) (ws : List Str) (hw : w ≠ []) :
    joinSpace (w :: ws) ≠ [] := by
  cases ws with
  | nil => simpa [joinSpace] using hw
  | cons w2 ws2 =>
    cases w with
    | nil => exact absurd rfl hw
    | cons a t => simp [joinSpace]

lemma joinSpace_getLast? (l : List Str) (h : ∀ w ∈ l, isCleanWord w = true) :
    ∀ c, (joinSpace l).getLast? = some c → c.isWhitespace = false := by
  induction l with
  | nil =>
    intro c hc
    simp [joinSpace] at hc
  | cons w ws ih =>
    intro c hc
    cases ws with
    | nil => exact isCleanWord_last (h w (by simp)) c hc
    | cons w2 ws2 =>
      have hj : joinSpace (w :: w2 :: ws2) = w ++ ' ' :: joinSpace (w2 :: ws2) :=
        rfl
      rw [hj, List.getLast?_append_cons] at hc
      have hne : joinSpace (w2 :: ws2) ≠ [] :=
        joinSpace_ne_nil w2 ws2 (isCleanWord_ne_nil (h w2 (by simp)))
      cases hj2 : joinSpace (w2 :: ws2) with
      | nil => exact absurd hj2 hne
      | cons d u =>
        rw [hj2, List.getLast?_cons_cons] at hc
        apply ih (fun x hx => h x (by simp [hx]))
        rw [hj2]
        exact hc

lemma joinSpace_clean_trim (l : List Str) (h : ∀ w ∈ l, isCleanWord w = true) :
    jsTrim (joinSpace l) = joinSpace l := by
  cases l with
  | nil => rfl
  | cons w ws =>
    apply jsTrim_eq_self_of
    · intro c hc
      rw [joinSpace_cons_head? w ws (isCleanWord_ne_nil (h w (by simp)))] at hc
      exact isCleanWord_head (h w (by simp)) c hc
    · exact joinSpace_getLast? (w :: ws) h

/-- C5 (amended): provided every final result's text is clean (nonempty
with no leading or trailing whitespace — the shape both services
produce, since they trim every recognized fragment), `addResult`
establishes the claimed display invariant: a final payload leaves
`text` equal to the trimmed space-join of all final texts in arrival
order, and an interim payload leaves `text` equal to that final text
with the interim text appended after a space (just the interim text
when there is no final text yet). -/
theorem addResult_display (s : StoreState) (p : TranscriptionResult)
    (hclean : ∀ r ∈ s.results ++ [p], r.isFinal = true →
      isCleanWord r.text = true) :
    (p.isFinal = true →
      (Store.addResult s p).text
        = Store.finalText (Store.addResult s p).results) ∧
    (p.isFinal = false →
      (Store.addResult s p).text =
        if Store.finalText (Store.addResult s p).results = [] then p.text
        else Store.finalText (Store.addResult s p).results
          ++ ' ' :: p.text) := by
  constructor
  · intro hp
    simp [Store.addResult, Store.finalText, hp]
  · intro hp
    have hfil : (s.results ++ [p]).filter (fun r => r.isFinal)
        = s.results.filter (fun r => r.isFinal) := by
      rw [List.filter_append]
      simp [hp]
    have hcl : ∀ w ∈ (s.results.filter (fun r => r.isFinal)).map
        (fun r => r.text), isCleanWord w = true := by
      intro w hw
      obtain ⟨r, hr, rfl⟩ := List.mem_map.mp hw
      have hrm := List.mem_filter.mp hr
      exact hclean r (List.mem_append_left _ hrm.1) (by simpa using hrm.2)
    simp only [Store.addResult, Store.finalText, hp, Bool.false_eq_true,
      if_false, hfil]
    rw [joinSpace_clean_trim _ hcl]
    by_cases hnil :
        joinSpace ((s.results.filter (fun r => r.isFinal)).map
          (fun r => r.text)) = []
    · simp [hnil]
    · simp [hnil]

/-- A store holding one clean final text. -/
def cleanStore : StoreState :=
  { text := ['h', 'i'],
    results := [{ text := ['h', 'i'], timestamp := 0, confidence := none,
                  isFinal := true, latency := none }],
    metrics := { latency := 0, accuracy := 0, wordCount := 0 },
    isActive := true, connectionStatus := ConnStatus.connected }

/-- An interim payload. -/
def interimYo : TranscriptionResult :=
  { text := ['y', 'o'], timestamp := 1, confidence := none,
    isFinal := false, latency := none }

/-- Witness for C5: adding the interim result to the clean store shows
the final text followed by a single space and the interim text. -/
theorem addResult_display_witness :
    (Store.addResult cleanStore interimYo).text
      = ['h', 'i', ' ', 'y', 'o'] := by
  have h := (addResult_display cleanStore interimYo (by decide)).2 rfl
  rw [h]
  decide

/-- A store holding one final text with a trailing space, as the
fallback recognition path can produce. -/
def dirtyStore : StoreState :=
  { text := ['h', 'i', ' '],
    results := [{ text := ['h', 'i', ' '], timestamp := 0, confidence := none,
                  isFinal := true, latency := none }],
    metrics := { latency := 0, accuracy := 0, wordCount := 0 },
    isActive := true, connectionStatus := ConnStatus.connected }

/-- Counterexample for C5 as stated: with a stored final text carrying
a trailing space, adding an interim result yields a displayed text with
a double space, which is not the trimmed final text with the interim
text appended. -/
theorem addResult_display_cx :
    interimYo.isFinal = false ∧
    Store.finalText (Store.addResult dirtyStore interimYo).results ≠ [] ∧
    (Store.addResult dirtyStore interimYo).text
      ≠ Store.finalText (Store.addResult dirtyStore interimYo).results
          ++ ' ' :: interimYo.text := by
  decide
